import Mathlib

/-!
Shallow embedding of the MiniDB B+Tree page-format decoder
(`scripts/visualize_tree.py`) and proofs about it.

Modelling conventions:
* A file and every byte buffer is a `List Nat` (each element one byte).
* Python's `struct.unpack` on a short slice raises `struct.error`; every
  fallible read is therefore an `Option` that is `none` exactly when the
  slice `data[offset : offset+k]` has fewer than `k` bytes.
* Python string values are kept as their UTF-8 byte sequences (UTF-8
  decoding is injective on valid sequences, so equality of decoded
  strings coincides with equality of their byte sequences); a decoded
  float is kept as its 64-bit big-endian bit pattern.
* `read_page` swallows `struct.error`, `ValueError` (including
  `UnicodeDecodeError`) and `IndexError`, so in the model it is a total
  function into `Option Page`, and the dictionary built by
  `build_tree_structure` is an association list with unique keys.
-/

/-- Byte at index `i` of a buffer (total; only consulted in-bounds). -/
def byteAt (data : List Nat) (i : Nat) : Nat :=
  data.getD i 0

/-- Big-endian interpretation of a byte list, as in `struct.unpack` with
formats such as `>Q`, `>I`, `>H`, `>B`. -/
def beBytesToNat (bs : List Nat) : Nat :=
  bs.foldl (fun acc b => acc * 256 + b) 0

/-- Big-endian value of the `k`-byte slice of `data` starting at `offset`. -/
def beSlice (data : List Nat) (offset k : Nat) : Nat :=
  beBytesToNat ((data.drop offset).take k)

/-- One `struct.unpack` call on `data[offset : offset+k]`: fails exactly when
fewer than `k` bytes are available, as `struct.error` does on a short slice. -/
def readBE (data : List Nat) (offset k : Nat) : Option Nat :=
  if offset + k ≤ data.length then some (beSlice data offset k) else none

/-- Two's-complement reading of a 64-bit unsigned value, as `struct.unpack`
with format `>q` on the same eight bytes. -/
def toSigned64 (n : Nat) : Int :=
  if n < 2 ^ 63 then (n : Int) else (n : Int) - 2 ^ 64

/-- Is `b` a UTF-8 continuation byte (`0x80`–`0xBF`)? -/
def utf8Cont (b : Nat) : Bool :=
  0x80 ≤ b && b ≤ 0xBF

/-- Strict UTF-8 validity of a byte sequence, as Python's
`bytes.decode("utf-8")`: RFC 3629 ranges, rejecting overlong forms,
surrogates and code points above `U+10FFFF`. -/
def utf8Valid : List Nat → Bool
  | [] => true
  | b :: rest =>
    if b ≤ 0x7F then utf8Valid rest
    else if 0xC2 ≤ b && b ≤ 0xDF then
      match rest with
      | c1 :: r => utf8Cont c1 && utf8Valid r
      | _ => false
    else if b = 0xE0 then
      match rest with
      | c1 :: c2 :: r => (0xA0 ≤ c1 && c1 ≤ 0xBF) && utf8Cont c2 && utf8Valid r
      | _ => false
    else if (0xE1 ≤ b && b ≤ 0xEC) || b = 0xEE || b = 0xEF then
      match rest with
      | c1 :: c2 :: r => utf8Cont c1 && utf8Cont c2 && utf8Valid r
      | _ => false
    else if b = 0xED then
      match rest with
      | c1 :: c2 :: r => (0x80 ≤ c1 && c1 ≤ 0x9F) && utf8Cont c2 && utf8Valid r
      | _ => false
    else if b = 0xF0 then
      match rest with
      | c1 :: c2 :: c3 :: r =>
        (0x90 ≤ c1 && c1 ≤ 0xBF) && utf8Cont c2 && utf8Cont c3 && utf8Valid r
      | _ => false
    else if 0xF1 ≤ b && b ≤ 0xF3 then
      match rest with
      | c1 :: c2 :: c3 :: r =>
        utf8Cont c1 && utf8Cont c2 && utf8Cont c3 && utf8Valid r
      | _ => false
    else if b = 0xF4 then
      match rest with
      | c1 :: c2 :: c3 :: r =>
        (0x80 ≤ c1 && c1 ≤ 0x8F) && utf8Cont c2 && utf8Cont c3 && utf8Valid r
      | _ => false
    else false

/-- A decoded column value (`class Column`): the constructor is the
column-type tag `COLUMN_TYPE_INT / STRING / FLOAT / BOOL` (0/1/2/3), the
argument the decoded value. -/
inductive Column where
  | int (v : Int)
  | text (bytes : List Nat)
  | float (bits : Nat)
  | bool (b : Bool)
  deriving DecidableEq, Repr

/-- `read_column(data, offset)`: one tag byte then the tag-specific payload.
`none` models every raised `ValueError` (truncation, unknown tag, invalid
UTF-8). -/
def readColumn (data : List Nat) (offset : Nat) : Option (Column × Nat) :=
  if offset + 1 > data.length then none
  else if byteAt data offset = 0 then
    match readBE data (offset + 1) 8 with
    | some n => some (Column.int (toSigned64 n), offset + 1 + 8)
    | none => none
  else if byteAt data offset = 1 then
    match readBE data (offset + 1) 4 with
    | some len =>
      if offset + 1 + 4 + len > data.length then none
      else if utf8Valid ((data.drop (offset + 1 + 4)).take len) then
        some (Column.text ((data.drop (offset + 1 + 4)).take len), offset + 1 + 4 + len)
      else none
    | none => none
  else if byteAt data offset = 2 then
    match readBE data (offset + 1) 8 with
    | some bits => some (Column.float bits, offset + 1 + 8)
    | none => none
  else if byteAt data offset = 3 then
    match readBE data (offset + 1) 1 with
    | some b => some (Column.bool (b == 1), offset + 1 + 1)
    | none => none
  else none

/-- A decoded composite key (`class CompositeKey`): an ordered list of
column values. -/
structure CompositeKey where
  values : List Column
  deriving DecidableEq, Repr

/-- A decoded record (`class Record`): an ordered list of column values. -/
structure Record where
  columns : List Column
  deriving DecidableEq, Repr

/-- Loop reading `n` columns in sequence, threading the offset; fail-fast on
the first column failure (shared body of `read_composite_key` and
`read_record`). -/
def readColumns (data : List Nat) : Nat → Nat → Option (List Column × Nat)
  | 0, offset => some ([], offset)
  | n + 1, offset =>
    match readColumn data offset with
    | some (c, o2) =>
      match readColumns data n o2 with
      | some (cs, o3) => some (c :: cs, o3)
      | none => none
    | none => none

/-- `read_composite_key(data, offset)`: 4-byte big-endian count, then that
many columns. -/
def readCompositeKey (data : List Nat) (offset : Nat) : Option (CompositeKey × Nat) :=
  match readBE data offset 4 with
  | some n =>
    match readColumns data n (offset + 4) with
    | some (vs, o) => some (⟨vs⟩, o)
    | none => none
  | none => none

/-- `read_record(data, offset)`: 4-byte big-endian count, then that many
columns. -/
def readRecord (data : List Nat) (offset : Nat) : Option (Record × Nat) :=
  match readBE data offset 4 with
  | some n =>
    match readColumns data n (offset + 4) with
    | some (cs, o) => some (⟨cs⟩, o)
    | none => none
  | none => none

/-- Decoded fixed page header (`class PageHeader`), field names as in the
source. -/
structure PageHeader where
  page_id : Nat
  parent_page : Nat
  prev_page : Nat
  next_page : Nat
  page_type : Nat
  key_count : Nat
  free_space : Nat
  lsn : Nat
  deriving DecidableEq, Repr

/-- `PageHeader.__init__(data)`: reads the eight header fields at fixed
offsets (padding bytes 37–40 skipped); any `struct.error` on a short buffer
means the whole construction fails, which happens exactly when fewer than
49 bytes are supplied. -/
def readPageHeader (data : List Nat) : Option PageHeader :=
  if data.length < 49 then none
  else some
    { page_id := beSlice data 0 8
      parent_page := beSlice data 8 8
      prev_page := beSlice data 16 8
      next_page := beSlice data 24 8
      page_type := beSlice data 32 1
      key_count := beSlice data 33 2
      free_space := beSlice data 35 2
      lsn := beSlice data 41 8 }

/-- Decoded meta page (`class MetaPage`). -/
structure MetaPage where
  header : PageHeader
  root_page : Nat
  page_size : Nat
  order : Nat
  version : Nat
  deriving DecidableEq, Repr

/-- `MetaPage.__init__(header, data, offset)`: root page id (8 bytes), page
size (4), order (2), version (2). -/
def readMetaPage (header : PageHeader) (data : List Nat) (offset : Nat) :
    Option MetaPage :=
  (readBE data offset 8).bind fun rp =>
  (readBE data (offset + 8) 4).bind fun ps =>
  (readBE data (offset + 12) 2).bind fun od =>
  (readBE data (offset + 14) 2).map fun ver =>
  { header := header, root_page := rp, page_size := ps, order := od, version := ver }

/-- Decoded internal page (`class InternalPage`). -/
structure InternalPage where
  header : PageHeader
  keys : List CompositeKey
  children : List Nat
  deriving DecidableEq, Repr

/-- Decoded leaf page (`class LeafPage`). -/
structure LeafPage where
  header : PageHeader
  keys : List CompositeKey
  values : List Record
  deriving DecidableEq, Repr

/-- Loop reading `n` composite keys in sequence. -/
def readKeys (data : List Nat) : Nat → Nat → Option (List CompositeKey × Nat)
  | 0, offset => some ([], offset)
  | n + 1, offset =>
    match readCompositeKey data offset with
    | some (k, o2) =>
      match readKeys data n o2 with
      | some (ks, o3) => some (k :: ks, o3)
      | none => none
    | none => none

/-- Loop reading `n` records in sequence. -/
def readRecords (data : List Nat) : Nat → Nat → Option (List Record × Nat)
  | 0, offset => some ([], offset)
  | n + 1, offset =>
    match readRecord data offset with
    | some (r, o2) =>
      match readRecords data n o2 with
      | some (rs, o3) => some (r :: rs, o3)
      | none => none
    | none => none

/-- Loop reading `n` 8-byte child page identifiers. -/
def readChildren (data : List Nat) : Nat → Nat → Option (List Nat × Nat)
  | 0, offset => some ([], offset)
  | n + 1, offset =>
    match readBE data offset 8 with
    | some c =>
      match readChildren data n (offset + 8) with
      | some (cs, o3) => some (c :: cs, o3)
      | none => none
    | none => none

/-- `InternalPage.__init__`: `key_count` composite keys, then
`key_count + 1` child identifiers. -/
def readInternalPage (header : PageHeader) (data : List Nat) (offset : Nat) :
    Option InternalPage :=
  match readKeys data header.key_count offset with
  | some (ks, o2) =>
    match readChildren data (header.key_count + 1) o2 with
    | some (cs, _) => some { header := header, keys := ks, children := cs }
    | none => none
  | none => none

/-- `LeafPage.__init__`: `key_count` composite keys, then `key_count`
records. -/
def readLeafPage (header : PageHeader) (data : List Nat) (offset : Nat) :
    Option LeafPage :=
  match readKeys data header.key_count offset with
  | some (ks, o2) =>
    match readRecords data header.key_count o2 with
    | some (rs, _) => some { header := header, keys := ks, values := rs }
    | none => none
  | none => none

/-- A decoded page: the closed variant `MetaPage | InternalPage | LeafPage`
returned by `read_page`. -/
inductive Page where
  | meta (m : MetaPage)
  | internal (p : InternalPage)
  | leaf (p : LeafPage)
  deriving DecidableEq, Repr

/-- The header carried by a decoded page. -/
def pageHeaderOf : Page → PageHeader
  | Page.meta m => m.header
  | Page.internal p => p.header
  | Page.leaf p => p.header

/-- `PAGE_HEADER_SIZE = 56` (the constant the Go code uses; the serialized
header is actually 49 bytes). -/
def PAGE_HEADER_SIZE : Nat := 56

/-- `META_DATA_OFFSET = 49`: payload starts right after the 49-byte header. -/
def META_DATA_OFFSET : Nat := 49

/-- `DEFAULT_PAGE_SIZE = 4096`. -/
def DEFAULT_PAGE_SIZE : Nat := 4096

/-- `PAGE_TYPE_META = 0`. -/
def PAGE_TYPE_META : Nat := 0

/-- `PAGE_TYPE_INTERNAL = 1`. -/
def PAGE_TYPE_INTERNAL : Nat := 1

/-- `PAGE_TYPE_LEAF = 2`. -/
def PAGE_TYPE_LEAF : Nat := 2

/-- The bytes of slot `page_id`: `file.seek((page_id - 1) * page_size)`
followed by `file.read(page_size)` (a read past EOF returns what remains). -/
def pageData (file : List Nat) (page_size page_id : Nat) : List Nat :=
  (file.drop ((page_id - 1) * page_size)).take page_size

/-- Body of `read_page` on the bytes of one slot: the 56-byte gate, the
49-byte header decode, then dispatch on the page-type tag; `none` models
both the explicit `return None` paths and the caught exceptions. -/
def readPageData (data : List Nat) : Option Page :=
  if data.length < PAGE_HEADER_SIZE then none
  else
    match readPageHeader (data.take 49) with
    | none => none
    | some header =>
      if header.page_type = PAGE_TYPE_META then
        (readMetaPage header data META_DATA_OFFSET).map Page.meta
      else if header.page_type = PAGE_TYPE_INTERNAL then
        (readInternalPage header data META_DATA_OFFSET).map Page.internal
      else if header.page_type = PAGE_TYPE_LEAF then
        (readLeafPage header data META_DATA_OFFSET).map Page.leaf
      else none

/-- `read_page(file, page_id, page_size)`. -/
def readPage (file : List Nat) (page_id page_size : Nat) : Option Page :=
  readPageData (pageData file page_size page_id)

/-- Result of `build_tree_structure`: the page dictionary (an association
list with unique keys, in insertion order) and the root identifier. -/
structure ScanResult where
  pages : List (Nat × Page)
  root_id : Option Nat
  deriving DecidableEq, Repr

/-- `file_size // DEFAULT_PAGE_SIZE`: the number of page slots scanned. -/
def numSlots (file : List Nat) : Nat :=
  file.length / DEFAULT_PAGE_SIZE

/-- The loop `for page_id in range(2, num_pages + 1)`: each slot whose
decode succeeds contributes its entry, a failing slot is silently skipped. -/
def scanPages (file : List Nat) : List (Nat × Page) :=
  (List.range' 2 (numSlots file - 1)).filterMap fun n =>
    (readPage file n DEFAULT_PAGE_SIZE).map fun p => (n, p)

/-- `build_tree_structure(file_path)`: slot 1 is recorded (and the root
identifier taken from it) only when it decodes as a meta page; then slots
2 … `num_pages` are scanned. -/
def build_tree_structure (file : List Nat) : ScanResult :=
  match readPage file 1 DEFAULT_PAGE_SIZE with
  | some (Page.meta m) => ⟨(1, Page.meta m) :: scanPages file, some m.root_page⟩
  | _ => ⟨scanPages file, none⟩

/-- Big-endian encoding of `v` on `k` bytes (most significant first). -/
def encodeBE (v : Nat) : Nat → List Nat
  | 0 => []
  | k + 1 => encodeBE (v / 256) k ++ [v % 256]

/-- Modelled from the spec: the repository ships only the decoder; the
engine that writes the format is not part of the sources. Per §4.1, the
reference encoding of a value is its tag byte followed by the tag-specific
big-endian payload: Integer — 8 bytes two's complement; Text — 4-byte
length prefix then the UTF-8 bytes; Float — the 8 bytes of the IEEE-754
binary64 bit pattern; Boolean — one byte, 1 for true and 0 for false. -/
def encodeColumn : Column → List Nat
  | Column.int v => 0 :: encodeBE (Int.toNat (v % 2 ^ 64)) 8
  | Column.text bs => 1 :: (encodeBE bs.length 4 ++ bs)
  | Column.float bits => 2 :: encodeBE bits 8
  | Column.bool b => 3 :: [if b then 1 else 0]

/-- The values representable by the format: 64-bit signed integers, valid
UTF-8 texts shorter than `2^32` bytes, 64-bit float patterns, booleans. -/
def columnWF : Column → Bool
  | Column.int v => decide (-(2 ^ 63) ≤ v) && decide (v < 2 ^ 63)
  | Column.text bs => utf8Valid bs && decide (bs.length < 2 ^ 32)
  | Column.float bits => decide (bits < 2 ^ 64)
  | Column.bool _ => true

/-- A concrete well-formed 65-byte meta page image: header with
`page_id = 1`, type tag 0 (meta), zero counts, then the meta payload
`root_page = 2`, `page_size = 8192`, `order = 4`, `version = 1`. -/
def metaBytes : List Nat :=
  [0, 0, 0, 0, 0, 0, 0, 1,
   0, 0, 0, 0, 0, 0, 0, 0,
   0, 0, 0, 0, 0, 0, 0, 0,
   0, 0, 0, 0, 0, 0, 0, 0,
   0,
   0, 0,
   0, 0,
   0, 0, 0, 0,
   0, 0, 0, 0, 0, 0, 0, 0,
   0, 0, 0, 0, 0, 0, 0, 2,
   0, 0, 32, 0,
   0, 4,
   0, 1]

/-- A two-slot (8192-byte) file whose meta page records the configured
page size 8192, different from the scanner's fixed 4096. -/
def twoSlotFile : List Nat :=
  metaBytes ++ List.replicate 8127 0

/-- The meta page decoded from `metaBytes`. -/
def metaBytesPage : MetaPage :=
  { header :=
      { page_id := 1, parent_page := 0, prev_page := 0, next_page := 0,
        page_type := 0, key_count := 0, free_space := 0, lsn := 0 }
    root_page := 2, page_size := 8192, order := 4, version := 1 }

/-- The degenerate all-zero meta page: what a slot of 4096 zero bytes
decodes to. -/
def zeroMetaPage : MetaPage :=
  { header :=
      { page_id := 0, parent_page := 0, prev_page := 0, next_page := 0,
        page_type := 0, key_count := 0, free_space := 0, lsn := 0 }
    root_page := 0, page_size := 0, order := 0, version := 0 }

example : readColumn [3, 1] 0 = some (Column.bool true, 2) := by decide
example : readColumn [3, 0] 0 = some (Column.bool false, 2) := by decide
example : readColumn [3, 7] 0 = some (Column.bool false, 2) := by decide
example : readColumn [0, 255, 255, 255, 255, 255, 255, 255, 255] 0
    = some (Column.int (-1), 9) := by decide
example : readColumn [1, 0, 0, 0, 2, 104, 105] 0
    = some (Column.text [104, 105], 7) := by decide
example : readColumn [1, 0, 0, 0, 1, 0xC0] 0 = none := by decide
example : readColumn [4, 0] 0 = none := by decide
example : readColumn [0, 1] 0 = none := by decide

/-! General lemmas about the byte-level readers. -/

theorem beSlice_append (pre l2 : List Nat) (o k : Nat) (h : o + k ≤ pre.length) :
    beSlice (pre ++ l2) o k = beSlice pre o k := by
  unfold beSlice
  rw [List.drop_append_of_le_length (by omega)]
  rw [List.take_append_of_le_length (by simp; omega)]

theorem readBE_of_le (data : List Nat) (o k : Nat) (h : o + k ≤ data.length) :
    readBE data o k = some (beSlice data o k) := by
  unfold readBE
  rw [if_pos h]

theorem readBE_append (pre l2 : List Nat) (o k : Nat) (h : o + k ≤ pre.length) :
    readBE (pre ++ l2) o k = some (beSlice pre o k) := by
  rw [readBE_of_le _ _ _ (by simp; omega), beSlice_append _ _ _ _ h]

theorem beSlice_take49 (pre : List Nat) (o k : Nat) (hok : o + k ≤ 49) :
    beSlice (pre.take 49) o k = beSlice pre o k := by
  unfold beSlice
  rw [List.drop_take, List.take_take]
  congr 2
  omega

theorem readPageHeader_of_le (pre : List Nat) (h : 49 ≤ pre.length) :
    readPageHeader (pre.take 49) = some
      { page_id := beSlice pre 0 8, parent_page := beSlice pre 8 8,
        prev_page := beSlice pre 16 8, next_page := beSlice pre 24 8,
        page_type := beSlice pre 32 1, key_count := beSlice pre 33 2,
        free_space := beSlice pre 35 2, lsn := beSlice pre 41 8 } := by
  unfold readPageHeader
  rw [if_neg (by simp; omega)]
  simp only [beSlice_take49 pre 0 8 (by omega), beSlice_take49 pre 8 8 (by omega),
    beSlice_take49 pre 16 8 (by omega), beSlice_take49 pre 24 8 (by omega),
    beSlice_take49 pre 32 1 (by omega), beSlice_take49 pre 33 2 (by omega),
    beSlice_take49 pre 35 2 (by omega), beSlice_take49 pre 41 8 (by omega)]

/-- Padding a meta-tagged page image with trailing zero bytes does not
change its decode: every read the meta path performs lies inside the first
65 bytes. -/
theorem readPageData_meta_padded (pre : List Nat) (pad : Nat)
    (h65 : 65 ≤ pre.length) (htype : beSlice pre 32 1 = PAGE_TYPE_META) :
    readPageData (pre ++ List.replicate pad 0) = readPageData pre := by
  unfold readPageData
  rw [List.take_append_of_le_length (by omega)]
  have hlen : (pre ++ List.replicate pad 0).length = pre.length + pad := by simp
  rw [if_neg (by simp [PAGE_HEADER_SIZE]; omega), if_neg (by simp [PAGE_HEADER_SIZE]; omega)]
  rw [readPageHeader_of_le pre (by omega), htype]
  simp only [eq_self_iff_true, if_true]
  unfold readMetaPage META_DATA_OFFSET
  rw [readBE_append pre (List.replicate pad 0) 49 8 (by omega),
    readBE_append pre (List.replicate pad 0) (49 + 8) 4 (by omega),
    readBE_append pre (List.replicate pad 0) (49 + 12) 2 (by omega),
    readBE_append pre (List.replicate pad 0) (49 + 14) 2 (by omega),
    readBE_of_le pre 49 8 (by omega),
    readBE_of_le pre (49 + 8) 4 (by omega),
    readBE_of_le pre (49 + 12) 2 (by omega),
    readBE_of_le pre (49 + 14) 2 (by omega)]

set_option maxRecDepth 4000 in
/-- Slot 2 of an 8192-byte all-zero file decodes to the all-zero meta page
(type tag 0, every field 0). -/
theorem readPage_zeros_slot2 :
    readPage (List.replicate 8192 0) 2 4096 = some (Page.meta zeroMetaPage) := by
  unfold readPage pageData
  rw [show (2 - 1) * 4096 = 4096 by norm_num]
  rw [List.drop_replicate, List.take_replicate]
  rw [show min 4096 (8192 - 4096) = 4096 by norm_num]
  rw [show (4096 : Nat) = 65 + 4031 by norm_num]
  rw [← List.append_replicate_replicate]
  rw [readPageData_meta_padded _ _ (by simp) (by decide)]
  decide

set_option maxRecDepth 4000 in
/-- Slot 1 of `twoSlotFile` decodes to `metaBytesPage`. -/
theorem readPage_twoSlotFile_slot1 :
    readPage twoSlotFile 1 4096 = some (Page.meta metaBytesPage) := by
  unfold readPage pageData twoSlotFile
  rw [show (1 - 1) * 4096 = 0 by norm_num, List.drop_zero]
  rw [List.take_append_eq_append_take]
  rw [List.take_of_length_le (l := metaBytes) (by decide)]
  rw [List.take_replicate]
  rw [show min (4096 - metaBytes.length) 8127 = 4031 by decide]
  rw [readPageData_meta_padded _ _ (by decide) (by decide)]
  decide

theorem readBE_after_tag (x : Nat) (pay rest : List Nat) (k : Nat)
    (hp : pay.length = k) :
    readBE (x :: (pay ++ rest)) 1 k = some (beBytesToNat pay) := by
  unfold readBE beSlice
  rw [if_pos (by simp; omega)]
  simp only [List.drop_succ_cons, List.drop_zero]
  rw [List.take_append_of_le_length (by omega)]
  subst hp
  rw [List.take_length]

theorem length_encodeBE : ∀ (k v : Nat), (encodeBE v k).length = k := by
  intro k
  induction k with
  | zero => intro v; rfl
  | succ k ih => intro v; simp [encodeBE, ih]

theorem beBytesToNat_encodeBE : ∀ (k v : Nat), beBytesToNat (encodeBE v k) = v % 256 ^ k := by
  intro k
  induction k with
  | zero => intro v; simp [encodeBE, beBytesToNat]; omega
  | succ k ih =>
    intro v
    show beBytesToNat (encodeBE (v / 256) k ++ [v % 256]) = v % 256 ^ (k + 1)
    unfold beBytesToNat
    rw [List.foldl_append]
    have hpart : List.foldl (fun acc b => acc * 256 + b) 0 (encodeBE (v / 256) k)
        = v / 256 % 256 ^ k := ih (v / 256)
    rw [hpart]
    show (v / 256 % 256 ^ k) * 256 + v % 256 = v % 256 ^ (k + 1)
    rw [pow_succ, Nat.mul_comm (256 ^ k) 256, Nat.mod_mul]
    omega

theorem beBytesToNat_encodeBE_of_lt (k v : Nat) (h : v < 256 ^ k) :
    beBytesToNat (encodeBE v k) = v := by
  rw [beBytesToNat_encodeBE, Nat.mod_eq_of_lt h]


/-! Lemmas about the counted decode loops: a successful loop returns
exactly as many elements as it was asked for. -/

theorem readKeys_length (data : List Nat) :
    ∀ (n offset : Nat) (ks : List CompositeKey) (o : Nat),
      readKeys data n offset = some (ks, o) → ks.length = n := by
  intro n
  induction n with
  | zero =>
    intro offset ks o h
    unfold readKeys at h
    simp only [Option.some.injEq, Prod.mk.injEq] at h
    rw [← h.1]
    rfl
  | succ k ih =>
    intro offset ks o h
    unfold readKeys at h
    cases hc : readCompositeKey data offset with
    | none => rw [hc] at h; exact absurd h (by simp)
    | some p =>
      obtain ⟨c1, o2⟩ := p
      rw [hc] at h
      dsimp only at h
      cases hr : readKeys data k o2 with
      | none => rw [hr] at h; exact absurd h (by simp)
      | some q =>
        obtain ⟨ks2, o3⟩ := q
        rw [hr] at h
        simp only [Option.some.injEq, Prod.mk.injEq] at h
        rw [← h.1]
        simp [ih o2 ks2 o3 hr]

theorem readRecords_length (data : List Nat) :
    ∀ (n offset : Nat) (rs : List Record) (o : Nat),
      readRecords data n offset = some (rs, o) → rs.length = n := by
  intro n
  induction n with
  | zero =>
    intro offset rs o h
    unfold readRecords at h
    simp only [Option.some.injEq, Prod.mk.injEq] at h
    rw [← h.1]
    rfl
  | succ k ih =>
    intro offset rs o h
    unfold readRecords at h
    cases hc : readRecord data offset with
    | none => rw [hc] at h; exact absurd h (by simp)
    | some p =>
      obtain ⟨r1, o2⟩ := p
      rw [hc] at h
      dsimp only at h
      cases hr : readRecords data k o2 with
      | none => rw [hr] at h; exact absurd h (by simp)
      | some q =>
        obtain ⟨rs2, o3⟩ := q
        rw [hr] at h
        simp only [Option.some.injEq, Prod.mk.injEq] at h
        rw [← h.1]
        simp [ih o2 rs2 o3 hr]

theorem readChildren_length (data : List Nat) :
    ∀ (n offset : Nat) (cs : List Nat) (o : Nat),
      readChildren data n offset = some (cs, o) → cs.length = n := by
  intro n
  induction n with
  | zero =>
    intro offset cs o h
    unfold readChildren at h
    simp only [Option.some.injEq, Prod.mk.injEq] at h
    rw [← h.1]
    rfl
  | succ k ih =>
    intro offset cs o h
    unfold readChildren at h
    cases hc : readBE data offset 8 with
    | none => rw [hc] at h; exact absurd h (by simp)
    | some c =>
      rw [hc] at h
      dsimp only at h
      cases hr : readChildren data k (offset + 8) with
      | none => rw [hr] at h; exact absurd h (by simp)
      | some q =>
        obtain ⟨cs2, o3⟩ := q
        rw [hr] at h
        simp only [Option.some.injEq, Prod.mk.injEq] at h
        rw [← h.1]
        simp [ih (offset + 8) cs2 o3 hr]

/-! Lemmas about the scanner's page dictionary. -/

theorem lookup_filterMap_range (g : Nat → Option Page) (n : Nat) :
    ∀ (k s : Nat),
      (((List.range' s k).filterMap fun i => (g i).map fun p => (i, p)).lookup n)
        = if s ≤ n ∧ n < s + k then g n else none := by
  intro k
  induction k with
  | zero =>
    intro s
    rw [if_neg (by omega)]
    rfl
  | succ k ih =>
    intro s
    rw [List.range'_succ, List.filterMap_cons]
    cases hgs : g s with
    | none =>
      simp only [Option.map_none']
      rw [ih (s + 1)]
      by_cases hn : n = s
      · subst hn
        rw [if_neg (by omega), if_pos (by omega)]
        exact hgs.symm
      · by_cases hin : s ≤ n ∧ n < s + (k + 1)
        · rw [if_pos (by omega), if_pos hin]
        · rw [if_neg (by omega), if_neg hin]
    | some p =>
      simp only [Option.map_some']
      rw [List.lookup_cons]
      by_cases hn : n = s
      · subst hn
        have hb : (n == n) = true := by simp
        simp only [beq_self_eq_true]
        rw [if_pos (by omega)]
        exact hgs.symm
      · have hb : (n == s) = false := by simp [hn]
        rw [hb, ih (s + 1)]
        by_cases hin : s ≤ n ∧ n < s + (k + 1)
        · rw [if_pos (by omega), if_pos hin]
        · rw [if_neg (by omega), if_neg hin]

theorem lookup_scanPages (file : List Nat) (n : Nat) (h2 : 2 ≤ n)
    (hn : n ≤ numSlots file) :
    (scanPages file).lookup n = readPage file n DEFAULT_PAGE_SIZE := by
  unfold scanPages
  rw [lookup_filterMap_range]
  rw [if_pos (by omega)]

theorem lookup_scanPages_one (file : List Nat) :
    (scanPages file).lookup 1 = none := by
  unfold scanPages
  rw [lookup_filterMap_range]
  rw [if_neg (by omega)]

theorem lookup_build_pages (file : List Nat) (n : Nat) (h2 : 2 ≤ n)
    (hn : n ≤ numSlots file) :
    (build_tree_structure file).pages.lookup n = readPage file n DEFAULT_PAGE_SIZE := by
  unfold build_tree_structure
  split
  · show List.lookup n ((1, _) :: scanPages file) = _
    rw [List.lookup_cons]
    have hb : (n == 1) = false := by simp; omega
    rw [hb]
    exact lookup_scanPages file n h2 hn
  · exact lookup_scanPages file n h2 hn

theorem beSlice_one (data : List Nat) (i : Nat) (h : i < data.length) :
    beSlice data i 1 = byteAt data i := by
  unfold beSlice byteAt
  rw [List.drop_eq_getElem_cons h, List.take_succ_cons, List.take_zero]
  simp [beBytesToNat, List.getElem?_eq_getElem h]

/-! Theorems for the claims. -/

/-- C4. If the primitive value decoder reads tag 3 (Boolean) with at least
one payload byte available, it returns `true` exactly when the payload byte
equals 1, and `false` for every other byte value, including 0: the decoded
value is literally the test `payload == 1`. -/
theorem c4_bool_decode (data : List Nat) (offset b : Nat)
    (hlen : offset + 2 ≤ data.length) (htag : byteAt data offset = 3)
    (hb : byteAt data (offset + 1) = b) :
    readColumn data offset = some (Column.bool (b == 1), offset + 2)
      ∧ (b = 1 → readColumn data offset = some (Column.bool true, offset + 2))
      ∧ (b ≠ 1 → readColumn data offset = some (Column.bool false, offset + 2)) := by
  have hmain : readColumn data offset = some (Column.bool (b == 1), offset + 2) := by
    unfold readColumn
    rw [if_neg (by omega)]
    simp only [htag]
    rw [if_neg (by omega), if_neg (by omega), if_neg (by omega)]
    simp only [if_true]
    rw [readBE_of_le data (offset + 1) 1 (by omega)]
    rw [beSlice_one data (offset + 1) (by omega), hb]
  refine ⟨hmain, ?_, ?_⟩
  · intro h1
    subst h1
    simpa using hmain
  · intro h1
    have hfalse : (b == 1) = false := by simp [h1]
    rw [hfalse] at hmain
    exact hmain

/-- C4 witness: buffer `[3, 5]` — tag 3 with payload byte 5, which is
neither 0 nor 1 — decodes to `false` with the cursor advanced past both
bytes. -/
theorem c4_bool_decode_witness :
    readColumn [3, 5] 0 = some (Column.bool false, 2) :=
  (c4_bool_decode [3, 5] 0 5 (by decide) (by decide) (by decide)).2.2 (by decide)

/-- C3. Structural count invariants hold for every page that decodes
successfully: an internal page always carries exactly one more child
identifier than separator keys (so a page claiming `key_count = k` whose
bytes cannot supply `k + 1` children fails decode instead of yielding a
malformed page), and a leaf page always carries exactly as many records as
keys. -/
theorem c3_count_invariants (hdr : PageHeader) (data : List Nat) (offset : Nat) :
    (∀ p : InternalPage, readInternalPage hdr data offset = some p →
        p.children.length = p.keys.length + 1)
      ∧ (∀ p : LeafPage, readLeafPage hdr data offset = some p →
        p.keys.length = p.values.length) := by
  constructor
  · intro p h
    unfold readInternalPage at h
    cases hk : readKeys data hdr.key_count offset with
    | none => rw [hk] at h; exact absurd h (by simp)
    | some kp =>
      obtain ⟨ks, o2⟩ := kp
      rw [hk] at h
      dsimp only at h
      cases hc : readChildren data (hdr.key_count + 1) o2 with
      | none => rw [hc] at h; exact absurd h (by simp)
      | some cp =>
        obtain ⟨cs, o3⟩ := cp
        rw [hc] at h
        simp only [Option.some.injEq] at h
        rw [← h]
        have h1 : ks.length = hdr.key_count := readKeys_length data hdr.key_count offset ks o2 hk
        have h2 : cs.length = hdr.key_count + 1 :=
          readChildren_length data (hdr.key_count + 1) o2 cs o3 hc
        simp [h1, h2]
  · intro p h
    unfold readLeafPage at h
    cases hk : readKeys data hdr.key_count offset with
    | none => rw [hk] at h; exact absurd h (by simp)
    | some kp =>
      obtain ⟨ks, o2⟩ := kp
      rw [hk] at h
      dsimp only at h
      cases hr : readRecords data hdr.key_count o2 with
      | none => rw [hr] at h; exact absurd h (by simp)
      | some rp =>
        obtain ⟨rs, o3⟩ := rp
        rw [hr] at h
        simp only [Option.some.injEq] at h
        rw [← h]
        have h1 : ks.length = hdr.key_count := readKeys_length data hdr.key_count offset ks o2 hk
        have h2 : rs.length = hdr.key_count := readRecords_length data hdr.key_count o2 rs o3 hr
        simp [h1, h2]

/-- C3 witness: a 57-byte zero buffer read as an internal page with
`key_count = 0` decodes to zero keys and exactly one child, and the
invariant instantiates to `1 = 0 + 1`. -/
theorem c3_count_invariants_witness :
    readInternalPage ⟨0, 0, 0, 0, 1, 0, 0, 0⟩ (List.replicate 57 0) 49
        = some ⟨⟨0, 0, 0, 0, 1, 0, 0, 0⟩, [], [0]⟩
      ∧ ([0] : List Nat).length = ([] : List CompositeKey).length + 1 :=
  ⟨by decide,
   (c3_count_invariants ⟨0, 0, 0, 0, 1, 0, 0, 0⟩ (List.replicate 57 0) 49).1
     ⟨⟨0, 0, 0, 0, 1, 0, 0, 0⟩, [], [0]⟩ (by decide)⟩

/-- C2. Per-slot resilience of the File Scanner: for every input file and
every slot `n` in `[2, numSlots]`, the entry of the returned page index at
key `n` is exactly the result of decoding slot `n` — `none` (absent) when
that decode fails for any reason, and the decoded page when it succeeds —
independently of what every other slot contains. Since
`build_tree_structure` is a total function, no input makes the scan fail:
a corrupt slot is omitted and every other decodable slot still appears. -/
theorem c2_slot_resilience (file : List Nat) (n : Nat) (h2 : 2 ≤ n)
    (hn : n ≤ numSlots file) :
    (build_tree_structure file).pages.lookup n = readPage file n DEFAULT_PAGE_SIZE :=
  lookup_build_pages file n h2 hn

/-- C2 witness: slot 2 of an 8192-byte file is looked up to exactly its own
decode result. -/
theorem c2_slot_resilience_witness :
    (build_tree_structure (List.replicate 8192 0)).pages.lookup 2
      = readPage (List.replicate 8192 0) 2 DEFAULT_PAGE_SIZE :=
  c2_slot_resilience (List.replicate 8192 0) 2 (by decide)
    (by unfold numSlots DEFAULT_PAGE_SIZE; rw [List.length_replicate])

/-- C9. The returned page index has an entry at key 1 exactly when slot 1
decodes successfully as a meta page; a slot 1 that decodes as an internal
or leaf page is excluded (the scan loop covers only slots `2 ..= numSlots`,
and the meta branch stores slot 1 only on `isinstance(meta, MetaPage)`). -/
theorem c9_slot1_meta_only (file : List Nat) :
    (build_tree_structure file).pages.lookup 1
      = match readPage file 1 DEFAULT_PAGE_SIZE with
        | some (Page.meta m) => some (Page.meta m)
        | _ => none := by
  cases hp : readPage file 1 DEFAULT_PAGE_SIZE with
  | none =>
    unfold build_tree_structure
    rw [hp]
    exact lookup_scanPages_one file
  | some pg =>
    cases pg with
    | meta m =>
      unfold build_tree_structure
      rw [hp]
      show List.lookup 1 ((1, Page.meta m) :: scanPages file) = some (Page.meta m)
      rw [List.lookup_cons]
      simp
    | internal p =>
      unfold build_tree_structure
      rw [hp]
      exact lookup_scanPages_one file
    | leaf p =>
      unfold build_tree_structure
      rw [hp]
      exact lookup_scanPages_one file

/-- C6. Root resolution: the scanner's root identifier is `some` of the
meta page's `root_page` field exactly when slot 1 decodes as a meta page,
and `none` otherwise — so a meta page recording `root_page = 0` yields the
distinguishable "empty tree" value `some 0`, never `none`. -/
theorem c6_rootResolution (file : List Nat) :
    ((build_tree_structure file).root_id
        = match readPage file 1 DEFAULT_PAGE_SIZE with
          | some (Page.meta m) => some m.root_page
          | _ => none)
      ∧ (∀ m : MetaPage, readPage file 1 DEFAULT_PAGE_SIZE = some (Page.meta m) →
          m.root_page = 0 →
          (build_tree_structure file).root_id = some 0
            ∧ (build_tree_structure file).root_id ≠ none) := by
  have hmain : (build_tree_structure file).root_id
      = match readPage file 1 DEFAULT_PAGE_SIZE with
        | some (Page.meta m) => some m.root_page
        | _ => none := by
    cases hp : readPage file 1 DEFAULT_PAGE_SIZE with
    | none =>
      unfold build_tree_structure
      rw [hp]
    | some pg =>
      cases pg with
      | meta m =>
        unfold build_tree_structure
        rw [hp]
      | internal p =>
        unfold build_tree_structure
        rw [hp]
      | leaf p =>
        unfold build_tree_structure
        rw [hp]
  refine ⟨hmain, ?_⟩
  intro m hp h0
  rw [hmain, hp]
  show some m.root_page = some 0 ∧ some m.root_page ≠ none
  rw [h0]
  exact ⟨rfl, by simp⟩

set_option maxRecDepth 4000 in
/-- C6 witness: the 65-byte all-zero file decodes slot 1 as a meta page
with `root_page = 0`, and the scanner reports root identifier `some 0`,
not `none`. -/
theorem c6_rootResolution_witness :
    (build_tree_structure (List.replicate 65 0)).root_id = some 0 :=
  ((c6_rootResolution (List.replicate 65 0)).2
    ⟨⟨0, 0, 0, 0, 0, 0, 0, 0⟩, 0, 0, 0, 0⟩ (by decide) rfl).1

/-- C8. Slot geometry is fixed at the default page size 4096: even for a
file whose decoded meta page records a configured page size different from
4096, every scanned slot entry is the decode of the 4096-byte-aligned
slice `file[(n-1)*4096 : n*4096]`, and the slot count is
`fileSize / 4096` — the recorded `page_size` plays no part in the
geometry. -/
theorem c8_fixed_page_size (file : List Nat) (m : MetaPage) (n : Nat)
    (hmeta : readPage file 1 DEFAULT_PAGE_SIZE = some (Page.meta m))
    (hsize : m.page_size ≠ DEFAULT_PAGE_SIZE)
    (h2 : 2 ≤ n) (hn : n ≤ file.length / 4096) :
    (build_tree_structure file).pages.lookup n
        = readPageData ((file.drop ((n - 1) * 4096)).take 4096)
      ∧ numSlots file = file.length / 4096 := by
  constructor
  · exact lookup_build_pages file n h2 hn
  · rfl

set_option maxRecDepth 4000 in
/-- C8 witness: `twoSlotFile` records page size 8192 in its meta page, yet
its slot 2 is looked up as the decode of the second 4096-byte slice. -/
theorem c8_fixed_page_size_witness :
    (build_tree_structure twoSlotFile).pages.lookup 2
        = readPageData ((twoSlotFile.drop ((2 - 1) * 4096)).take 4096)
      ∧ numSlots twoSlotFile = twoSlotFile.length / 4096 :=
  c8_fixed_page_size twoSlotFile metaBytesPage 2
    readPage_twoSlotFile_slot1
    (by decide)
    (by decide)
    (by unfold twoSlotFile
        rw [List.length_append, List.length_replicate]
        decide)

/-- C10. Index keys are slot-derived: an entry the scan loop stores at key
`n` is exactly the decode of slot `n`, with the page's own header
`page_id` never compared against `n` — a page whose header `page_id`
disagrees with its slot number is still indexed under the slot number,
and no corruption signal exists in the result. -/
theorem c10_slot_key_indexing (file : List Nat) (n : Nat) (p : Page)
    (h2 : 2 ≤ n) (hn : n ≤ numSlots file)
    (hp : readPage file n DEFAULT_PAGE_SIZE = some p)
    (hmis : (pageHeaderOf p).page_id ≠ n) :
    (build_tree_structure file).pages.lookup n = some p := by
  rw [lookup_build_pages file n h2 hn]
  exact hp

set_option maxRecDepth 4000 in
/-- C10 witness: slot 2 of the all-zero 8192-byte file decodes to a page
whose header records `page_id = 0 ≠ 2`, yet it is indexed under key 2. -/
theorem c10_slot_key_indexing_witness :
    (build_tree_structure (List.replicate 8192 0)).pages.lookup 2
      = some (Page.meta zeroMetaPage) :=
  c10_slot_key_indexing (List.replicate 8192 0) 2 (Page.meta zeroMetaPage)
    (by decide)
    (by unfold numSlots DEFAULT_PAGE_SIZE; rw [List.length_replicate])
    readPage_zeros_slot2
    (by decide)

set_option maxRecDepth 4000 in
/-- C1 counterexample to the claim as stated: a page slot whose data is
exactly 49 bytes long (49 ≤ length ≤ 55) satisfies the header decoder —
`readPageHeader` succeeds on it — yet `read_page` yields no decoded page
for that slot, because it rejects any slot shorter than
`PAGE_HEADER_SIZE = 56` before ever invoking the header decoder. -/
theorem c1_counterexample :
    49 ≤ (pageData (List.replicate 49 0) 4096 1).length
      ∧ (pageData (List.replicate 49 0) 4096 1).length ≤ 55
      ∧ (readPageHeader (pageData (List.replicate 49 0) 4096 1)).isSome = true
      ∧ readPage (List.replicate 49 0) 1 4096 = none := by
  refine ⟨by decide, by decide, by decide, ?_⟩
  decide

/-- C1 (amended). The header decoder itself succeeds on any input of at
least 49 bytes, decoding the fields at their fixed offsets — page id
(bytes 0–7), parent (8–15), previous sibling (16–23), next sibling
(24–31), type tag (32), key count (33–34), free-space counter (35–36),
4 reserved padding bytes skipped, log sequence number (41–48) — and fails
exactly when fewer than 49 bytes are supplied; but a page slot is decoded
only when it holds at least `PAGE_HEADER_SIZE = 56` bytes, so a slot of
49–55 bytes yields no decoded header from the page reader. -/
theorem c1_header_decode (data file : List Nat) (n : Nat) :
    ((readPageHeader data).isSome = true ↔ 49 ≤ data.length)
      ∧ (∀ h : PageHeader, readPageHeader data = some h →
          h.page_id = beSlice data 0 8 ∧ h.parent_page = beSlice data 8 8
            ∧ h.prev_page = beSlice data 16 8 ∧ h.next_page = beSlice data 24 8
            ∧ h.page_type = beSlice data 32 1 ∧ h.key_count = beSlice data 33 2
            ∧ h.free_space = beSlice data 35 2 ∧ h.lsn = beSlice data 41 8)
      ∧ ((pageData file 4096 n).length < PAGE_HEADER_SIZE →
          readPage file n 4096 = none) := by
  refine ⟨?_, ?_, ?_⟩
  · unfold readPageHeader
    by_cases hlen : data.length < 49
    · rw [if_pos hlen]
      simp
      omega
    · rw [if_neg hlen]
      simp
      omega
  · intro h hh
    unfold readPageHeader at hh
    by_cases hlen : data.length < 49
    · rw [if_pos hlen] at hh
      exact absurd hh (by simp)
    · rw [if_neg hlen] at hh
      simp only [Option.some.injEq] at hh
      rw [← hh]
      exact ⟨rfl, rfl, rfl, rfl, rfl, rfl, rfl, rfl⟩
  · intro hshort
    unfold readPage readPageData
    rw [if_pos hshort]

set_option maxRecDepth 4000 in
/-- C1 witness for the amended claim: a 49-byte buffer decodes to a
header, and a file whose only slot holds 55 bytes yields no page. -/
theorem c1_header_decode_witness :
    (readPageHeader (List.replicate 49 0)).isSome = true
      ∧ readPage (List.replicate 55 0) 1 4096 = none := by
  constructor
  · exact (c1_header_decode (List.replicate 49 0) [] 1).1.mpr (by decide)
  · exact (c1_header_decode [] (List.replicate 55 0) 1).2.2 (by decide)

/-- C5. Exact failure characterization of the primitive value decoder: it
returns `none` (never any value at all — it is a pure function of the buffer and
offset, with no side effects) precisely when (a) the buffer is exhausted
before the tag or before the payload the tag demands, (b) the tag byte is
outside the four known values 0–3, or (c) a Text payload is not valid
UTF-8; on every other input it succeeds. -/
theorem c5_value_decode_failures (data : List Nat) (offset : Nat) :
    readColumn data offset = none ↔
      data.length < offset + 1
        ∨ (offset + 1 ≤ data.length ∧ 4 ≤ byteAt data offset)
        ∨ (offset + 1 ≤ data.length ∧ byteAt data offset = 0
            ∧ data.length < offset + 9)
        ∨ (offset + 1 ≤ data.length ∧ byteAt data offset = 2
            ∧ data.length < offset + 9)
        ∨ (offset + 1 ≤ data.length ∧ byteAt data offset = 3
            ∧ data.length < offset + 2)
        ∨ (offset + 1 ≤ data.length ∧ byteAt data offset = 1
            ∧ data.length < offset + 5)
        ∨ (offset + 5 ≤ data.length ∧ byteAt data offset = 1
            ∧ data.length < offset + 5 + beSlice data (offset + 1) 4)
        ∨ (offset + 5 + beSlice data (offset + 1) 4 ≤ data.length
            ∧ byteAt data offset = 1
            ∧ utf8Valid ((data.drop (offset + 5)).take (beSlice data (offset + 1) 4))
                = false) := by
  unfold readColumn
  by_cases h1 : offset + 1 > data.length
  · rw [if_pos h1]
    constructor
    · intro _
      exact Or.inl (by omega)
    · intro _
      rfl
  · rw [if_neg h1]
    by_cases ht0 : byteAt data offset = 0
    · rw [if_pos ht0]
      unfold readBE
      by_cases h8 : offset + 1 + 8 ≤ data.length
      · rw [if_pos h8]
        constructor
        · intro h
          exact absurd h (by simp)
        · intro h
          rcases h with h | h | h | h | h | h | h | h <;> first
            | omega
            | (exact absurd h.2.1 (by omega))
      · rw [if_neg h8]
        constructor
        · intro _
          refine Or.inr (Or.inr (Or.inl ⟨by omega, ht0, by omega⟩))
        · intro _
          rfl
    · rw [if_neg ht0]
      by_cases ht1 : byteAt data offset = 1
      · rw [if_pos ht1]
        unfold readBE
        by_cases h4 : offset + 1 + 4 ≤ data.length
        · rw [if_pos h4]
          dsimp only
          by_cases hpay : offset + 1 + 4 + beSlice data (offset + 1) 4 > data.length
          · rw [if_pos hpay]
            constructor
            · intro _
              refine Or.inr (Or.inr (Or.inr (Or.inr (Or.inr (Or.inr (Or.inl
                ⟨by omega, ht1, by omega⟩))))))
            · intro _
              rfl
          · rw [if_neg hpay]
            by_cases hutf : utf8Valid ((data.drop (offset + 1 + 4)).take
                (beSlice data (offset + 1) 4)) = true
            · rw [if_pos hutf]
              constructor
              · intro h
                exact absurd h (by simp)
              · intro h
                rcases h with h | h | h | h | h | h | h | h
                · omega
                · omega
                · exact absurd h.2.1 (by omega)
                · exact absurd h.2.1 (by omega)
                · exact absurd h.2.1 (by omega)
                · omega
                · omega
                · rw [show offset + 5 = offset + 1 + 4 by omega] at h
                  rw [hutf] at h
                  exact absurd h.2.2 (by simp)
            · rw [if_neg hutf]
              constructor
              · intro _
                refine Or.inr (Or.inr (Or.inr (Or.inr (Or.inr (Or.inr (Or.inr
                  ⟨by omega, ht1, ?_⟩))))))
                rw [show offset + 5 = offset + 1 + 4 by omega]
                simpa using hutf
              · intro _
                rfl
        · rw [if_neg h4]
          constructor
          · intro _
            refine Or.inr (Or.inr (Or.inr (Or.inr (Or.inr (Or.inl
              ⟨by omega, ht1, by omega⟩)))))
          · intro _
            rfl
      · rw [if_neg ht1]
        by_cases ht2 : byteAt data offset = 2
        · rw [if_pos ht2]
          unfold readBE
          by_cases h8 : offset + 1 + 8 ≤ data.length
          · rw [if_pos h8]
            constructor
            · intro h
              exact absurd h (by simp)
            · intro h
              rcases h with h | h | h | h | h | h | h | h <;> first
                | omega
                | (exact absurd h.2.1 (by omega))
          · rw [if_neg h8]
            constructor
            · intro _
              refine Or.inr (Or.inr (Or.inr (Or.inl ⟨by omega, ht2, by omega⟩)))
            · intro _
              rfl
        · rw [if_neg ht2]
          by_cases ht3 : byteAt data offset = 3
          · rw [if_pos ht3]
            unfold readBE
            by_cases hb : offset + 1 + 1 ≤ data.length
            · rw [if_pos hb]
              constructor
              · intro h
                exact absurd h (by simp)
              · intro h
                rcases h with h | h | h | h | h | h | h | h <;> first
                  | omega
                  | (exact absurd h.2.1 (by omega))
            · rw [if_neg hb]
              constructor
              · intro _
                refine Or.inr (Or.inr (Or.inr (Or.inr (Or.inl
                  ⟨by omega, ht3, by omega⟩))))
              · intro _
                rfl
          · rw [if_neg ht3]
            constructor
            · intro _
              exact Or.inr (Or.inl ⟨by omega, by omega⟩)
            · intro _
              rfl

theorem byteAt_cons (x : Nat) (l : List Nat) : byteAt (x :: l) 0 = x := by
  simp [byteAt]

theorem dropTake_cons_after (x : Nat) (pre mid rest2 : List Nat)
    (hp : pre.length = 4) :
    ((x :: (pre ++ (mid ++ rest2))).drop (0 + 1 + 4)).take mid.length = mid := by
  rw [show (0 + 1 + 4 : Nat) = pre.length + 1 by omega]
  rw [List.drop_succ_cons, List.drop_left, List.take_left]

/-- C7. Round-trip law: for each of the four primitive kinds, decoding the
reference encoding of a well-formed value — at offset 0, with arbitrary
trailing bytes — returns the original value with the cursor advanced
exactly past the encoded bytes. -/
theorem c7_roundtrip (c : Column) (rest : List Nat) (h : columnWF c = true) :
    readColumn (encodeColumn c ++ rest) 0 = some (c, (encodeColumn c).length) := by
  have e64i : (2 : Int) ^ 64 = 18446744073709551616 := by norm_num
  have e63i : (2 : Int) ^ 63 = 9223372036854775808 := by norm_num
  have e64n : (2 : Nat) ^ 64 = 18446744073709551616 := by norm_num
  have e63n : (2 : Nat) ^ 63 = 9223372036854775808 := by norm_num
  cases c with
  | int v =>
    simp only [columnWF, Bool.and_eq_true, decide_eq_true_eq] at h
    obtain ⟨hlo, hhi⟩ := h
    rw [e63i] at hlo hhi
    show readColumn ((0 :: encodeBE (Int.toNat (v % 2 ^ 64)) 8) ++ rest) 0 = _
    rw [List.cons_append]
    unfold readColumn
    rw [if_neg (by simp)]
    simp only [byteAt_cons]
    simp only [if_true]
    rw [readBE_after_tag 0 (encodeBE (Int.toNat (v % 2 ^ 64)) 8) rest 8
      (length_encodeBE 8 (Int.toNat (v % 2 ^ 64)))]
    dsimp only
    have hmod : beBytesToNat (encodeBE (Int.toNat (v % 2 ^ 64)) 8)
        = Int.toNat (v % 2 ^ 64) := by
      refine beBytesToNat_encodeBE_of_lt 8 _ ?_
      rw [show (256 : Nat) ^ 8 = 18446744073709551616 by norm_num]
      rw [e64i]
      omega
    rw [hmod]
    have hval : toSigned64 (Int.toNat (v % 2 ^ 64)) = v := by
      unfold toSigned64
      simp only [e63n, e64i, e64n]
      split <;> omega
    rw [hval]
    have hlen : (encodeColumn (Column.int v)).length = 0 + 1 + 8 := by
      show (0 :: encodeBE (Int.toNat (v % 2 ^ 64)) 8).length = 0 + 1 + 8
      simp [length_encodeBE]
    rw [hlen]
  | text bs =>
    simp only [columnWF, Bool.and_eq_true, decide_eq_true_eq] at h
    obtain ⟨hutf, hlt⟩ := h
    rw [show (2 : Nat) ^ 32 = 4294967296 by norm_num] at hlt

    show readColumn ((1 :: (encodeBE bs.length 4 ++ bs)) ++ rest) 0 = _
    rw [List.cons_append, List.append_assoc]
    unfold readColumn
    rw [if_neg (by simp)]
    simp only [byteAt_cons]
    rw [if_neg (by decide)]
    simp only [if_true]
    rw [readBE_after_tag 1 (encodeBE bs.length 4) (bs ++ rest) 4
      (length_encodeBE 4 bs.length)]
    dsimp only
    have hmod : beBytesToNat (encodeBE bs.length 4) = bs.length := by
      refine beBytesToNat_encodeBE_of_lt 4 _ ?_
      rw [show (256 : Nat) ^ 4 = 4294967296 by norm_num]
      omega
    rw [hmod]
    have hdata : (1 :: (encodeBE bs.length 4 ++ (bs ++ rest))).length
        = 1 + 4 + bs.length + rest.length := by
      simp [length_encodeBE]
      omega
    rw [if_neg (by rw [hdata]; omega)]
    rw [dropTake_cons_after 1 (encodeBE bs.length 4) bs rest (length_encodeBE 4 bs.length)]
    rw [hutf]
    simp only [if_true]
    have hlen : (encodeColumn (Column.text bs)).length = 0 + 1 + 4 + bs.length := by
      show (1 :: (encodeBE bs.length 4 ++ bs)).length = 0 + 1 + 4 + bs.length
      simp [length_encodeBE]
      omega
    rw [hlen]
  | float bits =>
    simp only [columnWF, decide_eq_true_eq] at h
    rw [e64n] at h
    show readColumn ((2 :: encodeBE bits 8) ++ rest) 0 = _
    rw [List.cons_append]
    unfold readColumn
    rw [if_neg (by simp)]
    simp only [byteAt_cons]
    rw [if_neg (by decide), if_neg (by decide)]
    simp only [if_true]
    rw [readBE_after_tag 2 (encodeBE bits 8) rest 8 (length_encodeBE 8 bits)]
    dsimp only
    have hmod : beBytesToNat (encodeBE bits 8) = bits := by
      refine beBytesToNat_encodeBE_of_lt 8 _ ?_
      rw [show (256 : Nat) ^ 8 = 18446744073709551616 by norm_num]
      omega
    rw [hmod]
    have hlen : (encodeColumn (Column.float bits)).length = 0 + 1 + 8 := by
      show (2 :: encodeBE bits 8).length = 0 + 1 + 8
      simp [length_encodeBE]
    rw [hlen]
  | bool b =>
    show readColumn ((3 :: [if b then 1 else 0]) ++ rest) 0 = _
    rw [List.cons_append]
    unfold readColumn
    rw [if_neg (by simp)]
    simp only [byteAt_cons]
    rw [if_neg (by decide), if_neg (by decide), if_neg (by decide)]
    simp only [if_true]
    rw [readBE_after_tag 3 [if b then 1 else 0] rest 1 rfl]
    dsimp only
    have hval : beBytesToNat [if b then 1 else 0] = if b then 1 else 0 := by
      cases b <;> rfl
    rw [hval]
    cases b <;> rfl

/-- C7 witness: the 64-bit integer −2 encodes to tag 0 followed by its
two's-complement bytes and decodes back to −2 with the cursor at 9. -/
theorem c7_roundtrip_witness :
    readColumn (encodeColumn (Column.int (-2)) ++ []) 0
      = some (Column.int (-2), (encodeColumn (Column.int (-2))).length) :=
  c7_roundtrip (Column.int (-2)) [] (by decide)
